import Mathlib

/-!
# lxdlet: the CRI runtime service backed by LXD

A shallow embedding of `lxdlet/runtime/lxd_runtime_service.go`.

* Go strings are Lean `String`s; the `strings` package functions used by the
  service are defined on the character lists and only for the non-empty
  separators the service passes (`"-"`, `"/"`, `":latest"`).
* A Go `map[string]T` is an association list read with `List.lookup`; ranging
  over a map visits every key with the value the map holds for it.
* A Go method returning `(*Resp, error)` returns `Go.ret resp err`, where either
  component may be nil (`none`); a run-time panic (index out of range) is
  `Go.panic`.
* The LXD daemon and the sandbox directory are explicit arguments.
-/

namespace Lxdlet

/-! ## Go run-time results -/

/-- Go error values, identified by their message. -/
abbrev Error := String

/-- Result of a Go function of type `(*α, error)`: the returned pair, or a panic. -/
inductive Go (α : Type) where
  | ret (resp : Option α) (err : Option Error)
  | panic (msg : String)
  deriving Repr, DecidableEq

/-- Result of an expression that may fault: its value or a panic. -/
inductive Val (α : Type) where
  | val (a : α)
  | panic (msg : String)
  deriving Repr, DecidableEq

/-! ## The `strings` package -/

/-- Cut `s` around the first occurrence of the non-empty `sep`:
`s[:i]` and `s[i+len(sep):]` for `i = strings.Index(s, sep)`, when `i >= 0`. -/
def cut (sep : List Char) : List Char → Option (List Char × List Char)
  | [] => none
  | c :: cs =>
    if sep.isPrefixOf (c :: cs) then some ([], (c :: cs).drop sep.length)
    else (cut sep cs).map (fun p => (c :: p.1, p.2))

/-- The Go call `strings.Index(s, sep)` for a non-empty `sep`: the byte offset of the
first occurrence, or `-1`. -/
def stringsIndex (s sep : String) : Int :=
  match cut sep.data s.data with
  | some (pre, _) => (String.mk pre).utf8ByteSize
  | none => -1

/-- The Go call `strings.HasPrefix(s, prefix)`. -/
def hasPrefix (s pre : String) : Bool :=
  pre.data.isPrefixOf s.data

/-- The loop of `genSplit`: at most `n` pieces, the last one the unsplit remainder. -/
def splitLoop (sep : List Char) : Nat → List Char → List (List Char)
  | 0, _ => []
  | 1, s => [s]
  | n + 2, s =>
    match cut sep s with
    | none => [s]
    | some (a, b) => a :: splitLoop sep (n + 1) b

/-- The Go call `strings.SplitN(s, sep, n)` for `n >= 0` and a non-empty `sep`. -/
def splitN (s sep : String) (n : Nat) : List String :=
  (splitLoop sep.data n s.data).map String.mk

/-- The Go call `strings.Split(s, sep)` for a non-empty `sep`: every piece is cut;
a string of `k` characters has at most `k + 1` pieces. -/
def split (s sep : String) : List String :=
  (splitLoop sep.data (s.data.length + 1) s.data).map String.mk

/-- Replace the first `n` occurrences of the non-empty `old` by `new`. -/
def replaceLoop (old new : List Char) : Nat → List Char → List Char
  | 0, s => s
  | n + 1, s =>
    match cut old s with
    | none => s
    | some (a, b) => a ++ new ++ replaceLoop old new n b

/-- The Go call `strings.Replace(s, old, new, n)` for `n >= 0` and a non-empty `old`. -/
def replace (s old new : String) (n : Nat) : String :=
  String.mk (replaceLoop old.data new.data n s.data)

/-- Go slice indexing `xs[i]`, which panics when `i` is out of range. -/
def index {α : Type} (xs : List α) (i : Nat) : Val α :=
  match xs.get? i with
  | some a => .val a
  | none => .panic "index out of range"

/-! ## Go maps -/

/-- A Go `map[string]T`. -/
abbrev GoMap (τ : Type) := List (String × τ)

/-- The comma-ok read `v, ok := m[key]`. -/
def GoMap.get? {τ : Type} (m : GoMap τ) (key : String) : Option τ :=
  List.lookup key m

/-- The plain read `m[key]`, the zero value when the key is missing. -/
def GoMap.get {τ : Type} (zero : τ) (m : GoMap τ) (key : String) : τ :=
  (List.lookup key m).getD zero

/-- The loop `for key, val := range m { if !body(key, val) { return false } }`
followed by `return true`: every key is visited with the value held for it. -/
def GoMap.rangeAll {τ : Type} (m : GoMap τ) (body : String → τ → Bool) : Bool :=
  m.all (fun kv => match List.lookup kv.1 m with
    | some v => body kv.1 v
    | none => true)

/-! ## The CRI messages (package `runtimeApi`) -/

namespace runtimeApi

/-- The CRI enumeration `ContainerState`. -/
inductive ContainerState where
  | CONTAINER_CREATED
  | CONTAINER_RUNNING
  | CONTAINER_EXITED
  | CONTAINER_UNKNOWN
  deriving Repr, DecidableEq

/-- The CRI enumeration `PodSandboxState`. -/
inductive PodSandboxState where
  | SANDBOX_READY
  | SANDBOX_NOTREADY
  deriving Repr, DecidableEq

structure ImageSpec where
  Image : String := ""
  deriving Repr, DecidableEq

structure ContainerMetadata where
  Name : String := ""
  Attempt : Nat := 0
  deriving Repr, DecidableEq

structure Container where
  Id : String := ""
  PodSandboxId : String := ""
  Metadata : Option ContainerMetadata := none
  Image : Option ImageSpec := none
  ImageRef : String := ""
  State : ContainerState := .CONTAINER_CREATED
  CreatedAt : Int := 0
  Labels : GoMap String := []
  Annotations : GoMap String := []
  deriving Repr, DecidableEq

structure ContainerStatus where
  Id : String := ""
  Metadata : Option ContainerMetadata := none
  State : ContainerState := .CONTAINER_CREATED
  CreatedAt : Int := 0
  Image : Option ImageSpec := none
  ImageRef : String := ""
  deriving Repr, DecidableEq

structure ContainerFilter where
  Id : String := ""
  State : Option ContainerState := none
  PodSandboxId : String := ""
  LabelSelector : GoMap String := []
  deriving Repr, DecidableEq

structure ListContainersRequest where
  Filter : Option ContainerFilter := none
  deriving Repr, DecidableEq

structure ListContainersResponse where
  Containers : List Container := []
  deriving Repr, DecidableEq

structure ContainerConfig where
  Metadata : Option ContainerMetadata := none
  Image : Option ImageSpec := none
  deriving Repr, DecidableEq

structure CreateContainerRequest where
  PodSandboxId : String := ""
  Config : Option ContainerConfig := none
  deriving Repr, DecidableEq

structure CreateContainerResponse where
  ContainerId : String := ""
  deriving Repr, DecidableEq

structure PodSandboxMetadata where
  Name : String := ""
  Uid : String := ""
  Namespace : String := ""
  Attempt : Nat := 0
  deriving Repr, DecidableEq

structure PodSandboxConfig where
  Metadata : Option PodSandboxMetadata := none
  Hostname : String := ""
  LogDirectory : String := ""
  Labels : GoMap String := []
  Annotations : GoMap String := []
  deriving Repr, DecidableEq

structure PodSandboxNetworkStatus where
  Ip : String := ""
  deriving Repr, DecidableEq

structure PodSandboxStatus where
  Id : String := ""
  Metadata : Option PodSandboxMetadata := none
  State : PodSandboxState := .SANDBOX_READY
  CreatedAt : Int := 0
  Network : Option PodSandboxNetworkStatus := none
  Labels : GoMap String := []
  Annotations : GoMap String := []
  deriving Repr, DecidableEq

structure PodSandboxStateValue where
  State : PodSandboxState := .SANDBOX_READY
  deriving Repr, DecidableEq

structure PodSandboxFilter where
  Id : String := ""
  State : Option PodSandboxStateValue := none
  LabelSelector : GoMap String := []
  deriving Repr, DecidableEq

structure PodSandbox where
  Id : String := ""
  Metadata : Option PodSandboxMetadata := none
  State : PodSandboxState := .SANDBOX_READY
  CreatedAt : Int := 0
  Labels : GoMap String := []
  deriving Repr, DecidableEq

structure RunPodSandboxRequest where
  Config : Option PodSandboxConfig := none
  deriving Repr, DecidableEq

structure RunPodSandboxResponse where
  PodSandboxId : String := ""
  deriving Repr, DecidableEq

structure StopPodSandboxResponse where
  deriving Repr, DecidableEq

structure RemovePodSandboxResponse where
  deriving Repr, DecidableEq

structure PodSandboxStatusResponse where
  Status : Option PodSandboxStatus := none
  deriving Repr, DecidableEq

structure ListPodSandboxRequest where
  Filter : Option PodSandboxFilter := none
  deriving Repr, DecidableEq

structure ListPodSandboxResponse where
  Items : List PodSandbox := []
  deriving Repr, DecidableEq

structure AttachRequest where
  ContainerId : String := ""
  Stdin : Bool := false
  Tty : Bool := false
  deriving Repr, DecidableEq

structure AttachResponse where
  Url : String := ""
  deriving Repr, DecidableEq

structure ExecRequest where
  ContainerId : String := ""
  Cmd : List String := []
  Tty : Bool := false
  Stdin : Bool := false
  deriving Repr, DecidableEq

structure ExecResponse where
  Url : String := ""
  deriving Repr, DecidableEq

structure ExecSyncRequest where
  ContainerId : String := ""
  Cmd : List String := []
  Timeout : Int := 0
  deriving Repr, DecidableEq

structure ExecSyncResponse where
  Stdout : List Nat := []
  Stderr : List Nat := []
  ExitCode : Int := 0
  deriving Repr, DecidableEq

structure PortForwardRequest where
  PodSandboxId : String := ""
  Port : List Int := []
  deriving Repr, DecidableEq

structure PortForwardResponse where
  Url : String := ""
  deriving Repr, DecidableEq

structure ContainerStatsRequest where
  ContainerId : String := ""
  deriving Repr, DecidableEq

structure ContainerStats where
  Id : String := ""
  CpuUsage : Nat := 0
  MemoryUsage : Nat := 0
  deriving Repr, DecidableEq

structure ContainerStatsResponse where
  Stats : Option ContainerStats := none
  deriving Repr, DecidableEq

structure ListContainerStatsRequest where
  Id : String := ""
  PodSandboxId : String := ""
  LabelSelector : GoMap String := []
  deriving Repr, DecidableEq

structure ListContainerStatsResponse where
  Stats : List ContainerStats := []
  deriving Repr, DecidableEq

structure UpdateContainerResourcesRequest where
  ContainerId : String := ""
  CpuShares : Int := 0
  MemoryLimitInBytes : Int := 0
  deriving Repr, DecidableEq

structure UpdateContainerResourcesResponse where
  deriving Repr, DecidableEq

structure UpdateRuntimeConfigRequest where
  PodCidr : Option String := none
  deriving Repr, DecidableEq

structure UpdateRuntimeConfigResponse where
  deriving Repr, DecidableEq

end runtimeApi

/-! ## The LXD client (package `util`, types of `lxd/shared/api`) -/

namespace api

/-- The fields of `api.Container` the service reads; `CreatedAt` in Unix nanoseconds. -/
structure Container where
  Name : String := ""
  Status : String := ""
  Config : GoMap String := []
  CreatedAt : Int := 0
  deriving Repr, DecidableEq

structure ContainerStateNetworkAddress where
  Family : String := ""
  Address : String := ""
  Netmask : String := ""
  Scope : String := ""
  deriving Repr, DecidableEq

structure ContainerStateNetwork where
  Addresses : List ContainerStateNetworkAddress := []
  deriving Repr, DecidableEq

structure ContainerState where
  Status : String := ""
  Network : GoMap ContainerStateNetwork := []
  deriving Repr, DecidableEq

end api

/-- The LXD daemon as seen through one `util.NewLxdClient` connection: the result of
connecting and of each client call the service makes. -/
structure LxdDaemon where
  /-- The error of `NewLxdClient`, `none` when the connection is made. -/
  connect : Option Error := none
  GetContainers : Except Error (List api.Container) := .ok []
  GetContainer : String → Except Error api.Container := fun _ => .error "not found"
  GetContainerState : String → Except Error api.ContainerState :=
    fun _ => .error "not found"
  /-- The error of `CreateContainer(name, image, true)`, `none` on success. -/
  CreateContainer : String → String → Option Error := fun _ _ => none

/-! ## State translation -/

open runtimeApi.ContainerState runtimeApi.PodSandboxState

/-- The function `translateState` of the runtime service. -/
def translateState (lxdState : String) : runtimeApi.ContainerState :=
  if lxdState = "Running" then CONTAINER_RUNNING
  else if lxdState = "Stopped" ∨ lxdState = "Stopping" ∨ lxdState = "Starting"
      ∨ lxdState = "Started" then CONTAINER_CREATED
  else if lxdState = "Cancelling" ∨ lxdState = "Aborting" ∨ lxdState = "Freezing"
      ∨ lxdState = "Frozen" then CONTAINER_EXITED
  else CONTAINER_UNKNOWN

/-! ## ListContainers and ContainerStatus -/

/-- The body of the loop of `ListContainers` for one hypervisor container:
`none` when the container is skipped (`continue`). -/
def listContainersStep (lxcContainer : api.Container) : Val (Option runtimeApi.Container) :=
  if stringsIndex lxcContainer.Name "-" < 0 then
    -- This is not an container we created
    .val none
  else
    match index (splitN lxcContainer.Name "-" 2) 1 with
    | .panic msg => .panic msg
    | .val name =>
      .val (some {
        CreatedAt := lxcContainer.CreatedAt
        Id := lxcContainer.Name
        Image := some { Image := GoMap.get "" lxcContainer.Config "image.serial" }
        ImageRef := GoMap.get "" lxcContainer.Config "image.release"
        Metadata := some { Name := name, Attempt := 0 }
        PodSandboxId := lxcContainer.Name
        State := translateState lxcContainer.Status })

/-- The loop of `ListContainers`, appending to the slice `containers`. -/
def listContainersLoop :
    List api.Container → List runtimeApi.Container → Val (List runtimeApi.Container)
  | [], containers => .val containers
  | lxcContainer :: rest, containers =>
    match listContainersStep lxcContainer with
    | .panic msg => .panic msg
    | .val none => listContainersLoop rest containers
    | .val (some container) => listContainersLoop rest (containers ++ [container])

/-- The method `ListContainers`. -/
def ListContainers (lxd : LxdDaemon) (_req : runtimeApi.ListContainersRequest) :
    Go runtimeApi.ListContainersResponse :=
  match lxd.connect with
  | some err => .ret none (some err)
  | none =>
    match lxd.GetContainers with
    | .error err => .ret none (some err)
    | .ok allLxcContainers =>
      match listContainersLoop allLxcContainers [] with
      | .panic msg => .panic msg
      | .val containers => .ret (some { Containers := containers }) none

/-- The method `ContainerStatus`. -/
def ContainerStatus (lxd : LxdDaemon) (ContainerId : String) :
    Go runtimeApi.ContainerStatus :=
  match lxd.connect with
  | some err => .ret none (some err)
  | none =>
    match lxd.GetContainer ContainerId with
    | .error err => .ret none (some err)
    | .ok container =>
      match index (splitN container.Name "-" 2) 1 with
      | .panic msg => .panic msg
      | .val name =>
        .ret (some {
          Id := ContainerId
          State := translateState container.Status
          Metadata := some { Name := name, Attempt := 0 }
          CreatedAt := container.CreatedAt
          Image := some { Image := GoMap.get "" container.Config "image.serial" }
          ImageRef := GoMap.get "" container.Config "image.release" }) none

/-! ## CreateContainer -/

/-- The image alias `CreateContainer` computes from the requested image. -/
def imageAlias (imageID : String) : Val String :=
  if hasPrefix imageID "docker.io" then
    match index (splitN imageID "/" 2) 1 with
    | .panic msg => .panic msg
    | .val rest => .val (replace rest ":latest" "" 1)
  else .val imageID

/-- The container identifier `CreateContainer` computes:
`fmt.Sprintf("pod-%s-%s", strings.Split(PodSandboxId, "-")[0], name)`. -/
def containerID (PodSandboxId name : String) : Val String :=
  match index (split PodSandboxId "-") 0 with
  | .panic msg => .panic msg
  | .val podPrefix => .val ("pod-" ++ podPrefix ++ "-" ++ name)

/-- The getters `req.GetConfig().GetImage()`, nil-safe up to the image, whose
field `Image` is then read through the pointer. -/
def requestImage (req : runtimeApi.CreateContainerRequest) : Val String :=
  match req.Config.bind (fun c => c.Image) with
  | some img => .val img.Image
  | none => .panic "nil pointer dereference"

/-- The getter chain `req.GetConfig().GetMetadata().GetName()`. -/
def requestName (req : runtimeApi.CreateContainerRequest) : String :=
  match req.Config.bind (fun c => c.Metadata) with
  | some m => m.Name
  | none => ""

/-- The method `CreateContainer`. -/
def CreateContainer (lxd : LxdDaemon) (req : runtimeApi.CreateContainerRequest) :
    Go runtimeApi.CreateContainerResponse :=
  match requestImage req with
  | .panic msg => .panic msg
  | .val image =>
    match imageAlias image with
    | .panic msg => .panic msg
    | .val imageID =>
      match lxd.connect with
      | some err => .ret none (some err)
      | none =>
        match containerID req.PodSandboxId (requestName req) with
        | .panic msg => .panic msg
        | .val cid =>
          match lxd.CreateContainer cid imageID with
          | some err => .ret none (some err)
          | none => .ret (some { ContainerId := cid }) none

/-! ## Unimplemented methods -/

/-- The receiver of the service methods. -/
structure LxdRuntime where
  lxdDataPath : String
  deriving Repr, DecidableEq

/-- The constant `sandboxesPath`. -/
def sandboxesPath : String := "/var/tmp/lxdlet/sandboxes"

/-- The receiver built by `NewLxdRuntimeService`. -/
def NewLxdRuntimeService : LxdRuntime := { lxdDataPath := sandboxesPath }

/-- The method `UpdateRuntimeConfig`. -/
def UpdateRuntimeConfig (_r : LxdRuntime) (_req : runtimeApi.UpdateRuntimeConfigRequest) :
    Go runtimeApi.UpdateRuntimeConfigResponse :=
  .ret (some {}) none

/-- The method `Attach`. -/
def Attach (_r : LxdRuntime) (_req : runtimeApi.AttachRequest) :
    Go runtimeApi.AttachResponse :=
  .ret none none

/-- The method `Exec`. -/
def Exec (_r : LxdRuntime) (_req : runtimeApi.ExecRequest) : Go runtimeApi.ExecResponse :=
  .ret none none

/-- The method `ExecSync`. -/
def ExecSync (_r : LxdRuntime) (_req : runtimeApi.ExecSyncRequest) :
    Go runtimeApi.ExecSyncResponse :=
  .ret none none

/-- The method `PortForward`. -/
def PortForward (_r : LxdRuntime) (_req : runtimeApi.PortForwardRequest) :
    Go runtimeApi.PortForwardResponse :=
  .ret none none

/-- The method `ContainerStats`. -/
def ContainerStats (_r : LxdRuntime) (_req : runtimeApi.ContainerStatsRequest) :
    Go runtimeApi.ContainerStatsResponse :=
  let resp : runtimeApi.ContainerStatsResponse := {}
  .ret (some resp) none

/-- The method `ListContainerStats`. -/
def ListContainerStats (_r : LxdRuntime) (_req : runtimeApi.ListContainerStatsRequest) :
    Go runtimeApi.ListContainerStatsResponse :=
  .ret none none

/-- The method `UpdateContainerResources`. -/
def UpdateContainerResources (_r : LxdRuntime)
    (_req : runtimeApi.UpdateContainerResourcesRequest) :
    Go runtimeApi.UpdateContainerResourcesResponse :=
  .ret none none

/-! ## The sandbox directory -/

/-- A regular file: its content and its change time (`Ctim`, in nanoseconds). -/
structure File (β : Type) where
  content : β
  ctime : Int

/-- The file system as the service sees it: the directory `dir` exists and holds
exactly the regular files `files`, by name; nothing else is modelled (no
sub-directory, no path outside `dir`, nor the removal of `dir` itself). -/
structure FS (β : Type) where
  dir : String
  files : List (String × File β)

/-- A name a regular file of a directory can have. -/
def validFileName (name : String) : Bool :=
  name ≠ "" && name ≠ "." && name ≠ ".." && !name.data.contains '/'
    && !name.data.contains (Char.ofNat 0) && name.utf8ByteSize ≤ 255

/-- The name of the file of `fs.dir` that `path` denotes, when it denotes one. -/
def FS.resolve {β : Type} (fs : FS β) (path : String) : Option String :=
  if (fs.dir.data ++ ['/']).isPrefixOf path.data then
    let name := String.mk (path.data.drop (fs.dir.data.length + 1))
    if validFileName name then some name else none
  else none

/-- The call `os.Stat(path)` for the regular files of the model: the file's change
time, `none` on error. -/
def FS.Stat {β : Type} (fs : FS β) (path : String) : Option Int :=
  match fs.resolve path with
  | some name => (List.lookup name fs.files).map (fun f => f.ctime)
  | none => none

/-- The call `ioutil.ReadFile(path)`. -/
def FS.ReadFile {β : Type} (fs : FS β) (path : String) : Except Error β :=
  match fs.resolve path with
  | some name =>
    match List.lookup name fs.files with
    | some f => .ok f.content
    | none => .error "no such file or directory"
  | none => .error "not a regular file"

/-- Drop the entry named `name`. -/
def eraseFile {β : Type} (name : String) (files : List (String × File β)) :
    List (String × File β) :=
  files.filter (fun e => e.1 ≠ name)

/-- The call `ioutil.WriteFile(path, content, 0644)` at time `now`: the file is
created or overwritten. -/
def FS.WriteFile {β : Type} (fs : FS β) (path : String) (content : β) (now : Int) :
    Option Error × FS β :=
  match fs.resolve path with
  | some name =>
    (none, { fs with files := eraseFile name fs.files ++
      [(name, { content := content, ctime := now })] })
  | none => (some "cannot create file", fs)

/-- The call `os.Remove(path)`, whose error the service drops. -/
def FS.Remove {β : Type} (fs : FS β) (path : String) : FS β :=
  match fs.resolve path with
  | some name => { fs with files := eraseFile name fs.files }
  | none => fs

/-- Insert a name into a list sorted by `<`. -/
def insertName (n : String) : List String → List String
  | [] => [n]
  | m :: ms => if n < m then n :: m :: ms else m :: insertName n ms

/-- The call `ioutil.ReadDir(path)`: the entry names, sorted by file name. -/
def FS.ReadDir {β : Type} (fs : FS β) (path : String) : Except Error (List String) :=
  if path = fs.dir then .ok ((fs.files.map (fun e => e.1)).foldr insertName [])
  else .error "no such file or directory"

/-- The pair `proto.Marshal` / `proto.Unmarshal` on sandbox configurations, with
`β` the serialised form; `Marshal` receives the possibly nil `req.GetConfig()`. -/
structure Codec (β : Type) where
  Marshal : Option runtimeApi.PodSandboxConfig → Except Error β
  Unmarshal : β → Except Error runtimeApi.PodSandboxConfig

/-! ## The address pattern of `getPodStatus` -/

/-- Regular expressions, as far as the address pattern needs them. -/
inductive Re where
  | lit (c : Char)
  | cls (lo hi : Char)
  | any
  | seq (a b : Re)
  | alt (a b : Re)
  deriving Repr, DecidableEq

/-- The suffixes left after matching `r` at the start of the input, one for each
way of matching; `.` matches any character but a line feed. -/
def Re.run : Re → List Char → List (List Char)
  | .lit c, x :: s => if x = c then [s] else []
  | .lit _, [] => []
  | .cls lo hi, x :: s => if lo ≤ x ∧ x ≤ hi then [s] else []
  | .cls _ _, [] => []
  | .any, x :: s => if x = '\n' then [] else [s]
  | .any, [] => []
  | .seq a b, s => (a.run s).flatMap (fun t => b.run t)
  | .alt a b, s => a.run s ++ b.run s

/-- A match of `^r$`: some way of matching `r` consumes the whole input. -/
def Re.matchAll (r : Re) (s : String) : Bool :=
  (r.run s.data).contains []

/-- The class `[0-9]`. -/
def reDigit : Re := .cls '0' '9'

/-- The group `([0-9]|[1-9][0-9]|1[0-9]{2}|2[0-4][0-9]|25[0-5])`. -/
def reOctet : Re :=
  .alt reDigit
    (.alt (.seq (.cls '1' '9') reDigit)
      (.alt (.seq (.lit '1') (.seq reDigit reDigit))
        (.alt (.seq (.lit '2') (.seq (.cls '0' '4') reDigit))
          (.seq (.lit '2') (.seq (.lit '5') (.cls '0' '5'))))))

/-- The pattern between `^` and `$`: `(octet.){3}octet`, the dot unescaped. -/
def reAddress : Re :=
  .seq (.seq reOctet .any)
    (.seq (.seq reOctet .any)
      (.seq (.seq reOctet .any) reOctet))

/-- The call `regexp.MatchString(pattern, ip)` of `getPodStatus`; the pattern
compiles, so the call returns no error. -/
def isIP (ip : String) : Bool :=
  reAddress.matchAll ip

/-! ## Sandbox methods -/

/-- The method `getPodPath`. -/
def getPodPath (r : LxdRuntime) (podUUID : String) : String :=
  r.lxdDataPath ++ "/" ++ podUUID

/-- What `getPodStatus` does with the container whose name starts with the pod
identifier: the network status to attach, if any. -/
def podNetwork (lxd : LxdDaemon) (lxcContainer : api.Container) :
    Val (Option runtimeApi.PodSandboxNetworkStatus) :=
  match lxd.GetContainerState lxcContainer.Name with
  | .error _ => .val none
  | .ok networkState =>
    if networkState.Network.length > 0 then
      match index (GoMap.get {} networkState.Network "eth0").Addresses 0 with
      | .panic msg => .panic msg
      | .val address =>
        let ip := address.Address
        if isIP ip then .val (some { Ip := ip }) else .val none
    else .val none

/-- The loop of `getPodStatus` over the hypervisor containers: it stops (`break`)
at the first container whose name has the pod identifier as a prefix. -/
def podNetworkLoop (lxd : LxdDaemon) (podID : String) :
    List api.Container → Val (Option runtimeApi.PodSandboxNetworkStatus)
  | [] => .val none
  | lxcContainer :: rest =>
    if hasPrefix lxcContainer.Name podID then podNetwork lxd lxcContainer
    else podNetworkLoop lxd podID rest

/-- The "Try get the IP of the container" part of `getPodStatus`. -/
def podNetworkLookup (lxd : LxdDaemon) (podID : String) :
    Val (Option runtimeApi.PodSandboxNetworkStatus) :=
  match lxd.connect with
  | some _ => .val none
  | none =>
    match lxd.GetContainers with
    | .error _ => .val none
    | .ok allLxcContainers => podNetworkLoop lxd podID allLxcContainers

/-- The method `getPodStatus`. -/
def getPodStatus {β : Type} (r : LxdRuntime) (codec : Codec β) (fs : FS β)
    (lxd : LxdDaemon) (podID : String) : Go runtimeApi.PodSandboxStatus :=
  let path := getPodPath r podID
  let (status, createdAt) :=
    match fs.Stat path with
    | some ctime => (SANDBOX_READY, ctime)
    | none => (SANDBOX_NOTREADY, (0 : Int))
  match fs.ReadFile (getPodPath r podID) with
  | .error err => .ret none (some err)
  | .ok content =>
    match codec.Unmarshal content with
    | .error err => .ret none (some err)
    | .ok config =>
      let response : runtimeApi.PodSandboxStatus :=
        { Id := podID, State := status, CreatedAt := createdAt, Metadata := config.Metadata }
      match podNetworkLookup lxd podID with
      | .panic msg => .panic msg
      | .val none => .ret (some response) none
      | .val (some network) => .ret (some { response with Network := some network }) none

/-- The function `podSandboxStatusMatchesFilter`. -/
def podSandboxStatusMatchesFilter (sbx : runtimeApi.PodSandboxStatus)
    (filter : Option runtimeApi.PodSandboxFilter) : Bool :=
  match filter with
  | none => true
  | some filter =>
    if filter.Id ≠ "" ∧ filter.Id ≠ sbx.Id then false
    else if filter.State.any (fun st => st.State ≠ sbx.State) then false
    else
      GoMap.rangeAll filter.LabelSelector (fun key val =>
        match sbx.Labels.get? key with
        | none => false
        | some sbxLabel => if sbxLabel ≠ val then false else true)

/-- The getter chain `req.GetConfig().GetMetadata().GetUid()`. -/
def requestUid (req : runtimeApi.RunPodSandboxRequest) : String :=
  match req.Config.bind (fun c => c.Metadata) with
  | some m => m.Uid
  | none => ""

/-- The method `RunPodSandbox`, at time `now`; it returns the file system it leaves. -/
def RunPodSandbox {β : Type} (r : LxdRuntime) (codec : Codec β) (now : Int) (fs : FS β)
    (req : runtimeApi.RunPodSandboxRequest) :
    Go runtimeApi.RunPodSandboxResponse × FS β :=
  let podUUID := requestUid req
  match codec.Marshal req.Config with
  | .error err => (.ret none (some err), fs)
  | .ok serialisedRequest =>
    match fs.WriteFile (getPodPath r podUUID) serialisedRequest now with
    | (some err, fs1) => (.ret none (some err), fs1)
    | (none, fs1) => (.ret (some { PodSandboxId := podUUID }) none, fs1)

/-- The method `StopPodSandbox`. -/
def StopPodSandbox {β : Type} (r : LxdRuntime) (fs : FS β) (PodSandboxId : String) :
    Go runtimeApi.StopPodSandboxResponse × FS β :=
  (.ret (some {}) none, fs.Remove (getPodPath r PodSandboxId))

/-- The method `RemovePodSandbox`. -/
def RemovePodSandbox {β : Type} (r : LxdRuntime) (fs : FS β) (PodSandboxId : String) :
    Go runtimeApi.RemovePodSandboxResponse × FS β :=
  (.ret (some {}) none, fs.Remove (getPodPath r PodSandboxId))

/-- The method `PodSandboxStatus`. -/
def PodSandboxStatus {β : Type} (r : LxdRuntime) (codec : Codec β) (fs : FS β)
    (lxd : LxdDaemon) (PodSandboxId : String) : Go runtimeApi.PodSandboxStatusResponse :=
  match getPodStatus r codec fs lxd PodSandboxId with
  | .panic msg => .panic msg
  | .ret _ (some err) => .ret none (some err)
  | .ret podStatus none => .ret (some { Status := podStatus }) none

/-- The loop of `ListPodSandbox` over the directory entries, appending to `sandboxes`. -/
def listPodSandboxLoop {β : Type} (r : LxdRuntime) (codec : Codec β) (fs : FS β)
    (lxd : LxdDaemon) (filter : Option runtimeApi.PodSandboxFilter) :
    List String → List runtimeApi.PodSandbox → Go runtimeApi.ListPodSandboxResponse
  | [], sandboxes => .ret (some { Items := sandboxes }) none
  | podID :: rest, sandboxes =>
    match getPodStatus r codec fs lxd podID with
    | .panic msg => .panic msg
    | .ret _ (some err) => .ret none (some err)
    | .ret none none => .panic "nil pointer dereference"
    | .ret (some sandboxStatus) none =>
      if !podSandboxStatusMatchesFilter sandboxStatus filter then
        listPodSandboxLoop r codec fs lxd filter rest sandboxes
      else
        listPodSandboxLoop r codec fs lxd filter rest (sandboxes ++ [{
          Id := sandboxStatus.Id
          Labels := sandboxStatus.Labels
          Metadata := sandboxStatus.Metadata
          State := sandboxStatus.State
          CreatedAt := sandboxStatus.CreatedAt }])

/-- The method `ListPodSandbox`. -/
def ListPodSandbox {β : Type} (r : LxdRuntime) (codec : Codec β) (fs : FS β)
    (lxd : LxdDaemon) (req : runtimeApi.ListPodSandboxRequest) :
    Go runtimeApi.ListPodSandboxResponse :=
  match fs.ReadDir r.lxdDataPath with
  | .error err => .ret none (some err)
  | .ok files => listPodSandboxLoop r codec fs lxd req.Filter files []

/-! ## Concrete environments -/

/-- A serialisation that round-trips: the serialised form is the configuration itself;
a nil configuration is refused, as `proto.Marshal` does. -/
def plainCodec : Codec runtimeApi.PodSandboxConfig where
  Marshal := fun config =>
    match config with
    | some c => .ok c
    | none => .error "proto: Marshal called with nil"
  Unmarshal := fun content => .ok content

/-- The sandbox directory right after `NewLxdRuntimeService`, with no record. -/
def emptyStore : FS runtimeApi.PodSandboxConfig :=
  { dir := sandboxesPath, files := [] }

/-- The request to run the sandbox of the pod with UID "abc123". -/
def runAbc123 : runtimeApi.RunPodSandboxRequest :=
  { Config := some { Metadata := some { Name := "web", Uid := "abc123", Namespace := "default" } } }

/-- The store after `RunPodSandbox` with UID "abc123" on the empty store, at time 7. -/
def storeAbc123 : FS runtimeApi.PodSandboxConfig :=
  (RunPodSandbox NewLxdRuntimeService plainCodec 7 emptyStore runAbc123).2

/-- The request to run the sandbox of the pod with UID "abc123" and labels {a: 1}. -/
def runLabelled : runtimeApi.RunPodSandboxRequest :=
  { Config := some { Metadata := some { Name := "web", Uid := "abc123", Namespace := "default" }
                     Labels := [("a", "1")] } }

/-- The store after `RunPodSandbox` of the labelled pod on the empty store, at time 7. -/
def storeLabelled : FS runtimeApi.PodSandboxConfig :=
  (RunPodSandbox NewLxdRuntimeService plainCodec 7 emptyStore runLabelled).2

/-! ## State translation: the mapping table -/

/-- C1: `translateState` is total and implements the mapping table: "Running" gives
RUNNING; "Stopped", "Stopping", "Starting", "Started" give CREATED; "Cancelling",
"Aborting", "Freezing", "Frozen" give EXITED; every other string gives UNKNOWN, among
them "Pending", "Thawed", "Error", the empty string and "running". -/
theorem translateState_table (s : String) :
    (s = "Running" → translateState s = CONTAINER_RUNNING) ∧
    (s ∈ ["Stopped", "Stopping", "Starting", "Started"] →
      translateState s = CONTAINER_CREATED) ∧
    (s ∈ ["Cancelling", "Aborting", "Freezing", "Frozen"] →
      translateState s = CONTAINER_EXITED) ∧
    (s ∉ ["Running", "Stopped", "Stopping", "Starting", "Started", "Cancelling",
        "Aborting", "Freezing", "Frozen"] → translateState s = CONTAINER_UNKNOWN) ∧
    translateState "Pending" = CONTAINER_UNKNOWN ∧
    translateState "Thawed" = CONTAINER_UNKNOWN ∧
    translateState "Error" = CONTAINER_UNKNOWN ∧
    translateState "" = CONTAINER_UNKNOWN ∧
    translateState "running" = CONTAINER_UNKNOWN := by
  refine ⟨?_, ?_, ?_, ?_, by decide, by decide, by decide, by decide, by decide⟩
  · rintro rfl
    decide
  · intro h
    simp only [List.mem_cons, List.mem_singleton, List.not_mem_nil, or_false] at h
    rcases h with rfl | rfl | rfl | rfl <;> decide
  · intro h
    simp only [List.mem_cons, List.mem_singleton, List.not_mem_nil, or_false] at h
    rcases h with rfl | rfl | rfl | rfl <;> decide
  · intro h
    simp only [List.mem_cons, List.mem_singleton, List.not_mem_nil, or_false, not_or] at h
    obtain ⟨h1, h2, h3, h4, h5, h6, h7, h8, h9⟩ := h
    simp [translateState, h1, h2, h3, h4, h5, h6, h7, h8, h9]

/-- C1 at the label "Paused", which is not in the table. -/
theorem translateState_table_witness : translateState "Paused" = CONTAINER_UNKNOWN :=
  (translateState_table "Paused").2.2.2.1 (by decide)

/-! ## The sandbox filter -/

/-- A key read from a map is one of its entries. -/
theorem mem_of_lookup {τ : Type} (k : String) (v : τ) (m : List (String × τ))
    (h : List.lookup k m = some v) : (k, v) ∈ m := by
  induction m with
  | nil => simp at h
  | cons e m ih =>
    obtain ⟨k1, w1⟩ := e
    by_cases hk : k = k1
    · subst hk
      simp at h
      simp [h]
    · have hb : (k == k1) = false := by simpa using hk
      rw [List.lookup_cons, hb] at h
      exact List.mem_cons_of_mem _ (ih h)

/-- Ranging over a map with a test succeeds exactly when every entry passes. -/
theorem rangeAll_iff {τ : Type} (m : GoMap τ) (body : String → τ → Bool) :
    GoMap.rangeAll m body = true ↔ ∀ k v, m.get? k = some v → body k v = true := by
  unfold GoMap.rangeAll GoMap.get?
  rw [List.all_eq_true]
  constructor
  · intro h k v hkv
    have hmem : ∃ w, (k, w) ∈ m := ⟨v, mem_of_lookup k v m hkv⟩
    obtain ⟨w, hw⟩ := hmem
    have := h (k, w) hw
    simpa [hkv] using this
  · intro h kv hkv
    cases hl : List.lookup kv.1 m with
    | none => rfl
    | some v => exact h kv.1 v hl

/-- C2: a status matches a filter exactly when the filter is absent, or its identifier
is empty or the status's, its state is absent or the status's, and every pair of its
label selector is a label of the status; so labels {a: 1} match the selector {a: 1} and
neither {a: 2} nor {b: 1}, an identifier matches only itself, and the absent filter and
the all-empty filter match every status. -/
theorem podSandboxStatusMatchesFilter_iff (sbx : runtimeApi.PodSandboxStatus)
    (filter : Option runtimeApi.PodSandboxFilter) :
    (podSandboxStatusMatchesFilter sbx filter = true ↔
      (filter = none ∨ ∃ f, filter = some f ∧
        (f.Id = "" ∨ f.Id = sbx.Id) ∧
        (f.State = none ∨ f.State = some { State := sbx.State }) ∧
        ∀ key val, f.LabelSelector.get? key = some val → sbx.Labels.get? key = some val)) ∧
    podSandboxStatusMatchesFilter { sbx with Labels := [("a", "1")] }
      (some { LabelSelector := [("a", "1")] }) = true ∧
    podSandboxStatusMatchesFilter { sbx with Labels := [("a", "1")] }
      (some { LabelSelector := [("a", "2")] }) = false ∧
    podSandboxStatusMatchesFilter { sbx with Labels := [("a", "1")] }
      (some { LabelSelector := [("b", "1")] }) = false ∧
    (∀ id, id ≠ "" →
      (podSandboxStatusMatchesFilter sbx (some { Id := id }) = true ↔ sbx.Id = id)) ∧
    podSandboxStatusMatchesFilter sbx none = true ∧
    podSandboxStatusMatchesFilter sbx (some {}) = true := by
  have key : ∀ (s : runtimeApi.PodSandboxStatus) (flt : Option runtimeApi.PodSandboxFilter),
      podSandboxStatusMatchesFilter s flt = true ↔
      (flt = none ∨ ∃ f, flt = some f ∧
        (f.Id = "" ∨ f.Id = s.Id) ∧
        (f.State = none ∨ f.State = some { State := s.State }) ∧
        ∀ key val, f.LabelSelector.get? key = some val → s.Labels.get? key = some val) := by
    intro s flt
    cases flt with
    | none => simp [podSandboxStatusMatchesFilter]
    | some f =>
      have hstate : f.State.any (fun st => decide (st.State ≠ s.State)) = false ↔
          (f.State = none ∨ f.State = some { State := s.State }) := by
        cases hs : f.State with
        | none => simp
        | some st =>
          obtain ⟨x⟩ := st
          simp
      have hlab : GoMap.rangeAll f.LabelSelector (fun key val =>
            match s.Labels.get? key with
            | none => false
            | some sbxLabel => if sbxLabel ≠ val then false else true) = true ↔
          ∀ key val, f.LabelSelector.get? key = some val → s.Labels.get? key = some val := by
        rw [rangeAll_iff]
        refine forall_congr' (fun k => forall_congr' (fun v => imp_congr_right (fun _ => ?_)))
        cases s.Labels.get? k with
        | none => simp
        | some w => simp
      simp only [podSandboxStatusMatchesFilter, Option.some.injEq, false_or,
        exists_eq_left', reduceCtorEq]
      by_cases hid : f.Id ≠ "" ∧ f.Id ≠ s.Id
      · rw [if_pos hid]
        constructor
        · intro h; cases h
        · rintro ⟨h1, -⟩
          rcases h1 with h1 | h1
          · exact absurd h1 hid.1
          · exact absurd h1 hid.2
      · rw [if_neg hid]
        have hid2 : f.Id = "" ∨ f.Id = s.Id := by
          by_contra hc
          push_neg at hc
          exact hid hc
        cases hst : f.State.any (fun st => decide (st.State ≠ s.State)) with
        | true =>
          have hn : ¬ (f.State = none ∨ f.State = some { State := s.State }) := by
            rw [← hstate, hst]; simp
          simp [hn]
        | false =>
          have hy := hstate.mp hst
          simp only [Bool.false_eq_true, if_false]
          rw [hlab]
          exact ⟨fun h => ⟨hid2, hy, h⟩, fun h => h.2.2⟩
  refine ⟨key sbx filter, ?_, ?_, ?_, ?_, rfl, ?_⟩
  · simp [podSandboxStatusMatchesFilter, GoMap.rangeAll, GoMap.get?]
  · simp [podSandboxStatusMatchesFilter, GoMap.rangeAll, GoMap.get?]
  · have hb : List.lookup "b" [("a", "1")] = (none : Option String) := by decide
    simp [podSandboxStatusMatchesFilter, GoMap.rangeAll, GoMap.get?, hb]
  · intro id hid
    rw [key]
    simp [hid, GoMap.get?, eq_comm]
  · rw [key]
    simp [GoMap.get?]

/-- C2 at the identifier "abc123": a filter naming it matches the status that has it. -/
theorem podSandboxStatusMatchesFilter_iff_witness :
    podSandboxStatusMatchesFilter { Id := "abc123" } (some { Id := "abc123" }) = true ↔
      ("abc123" : String) = "abc123" :=
  (podSandboxStatusMatchesFilter_iff { Id := "abc123" } none).2.2.2.2.1 "abc123" (by decide)

/-! ## Cutting at the first hyphen -/

/-- Cutting at a one-character separator finds nothing exactly when the character
does not occur. -/
theorem cut_eq_none_iff (c : Char) (s : List Char) : cut [c] s = none ↔ c ∉ s := by
  induction s with
  | nil => simp [cut]
  | cons x xs ih =>
    by_cases hx : c = x
    · subst hx
      simp [cut]
    · have hx2 : ¬ x = c := fun h => hx h.symm
      simp [cut, hx, hx2, ih]

/-- Cutting at a one-character separator splits around its first occurrence. -/
theorem cut_first (c : Char) (pre post : List Char) (h : c ∉ pre) :
    cut [c] (pre ++ c :: post) = some (pre, post) := by
  induction pre with
  | nil => simp [cut]
  | cons x xs ih =>
    have hx : ¬ c = x := fun e => h (by simp [e])
    have hxs : c ∉ xs := fun e => h (List.mem_cons_of_mem _ e)
    simp [cut, hx, ih hxs]

/-- A successful cut at a one-character separator decomposes the input. -/
theorem cut_some (c : Char) (s pre post : List Char) (h : cut [c] s = some (pre, post)) :
    s = pre ++ c :: post ∧ c ∉ pre := by
  induction s generalizing pre with
  | nil => simp [cut] at h
  | cons x xs ih =>
    by_cases hx : c = x
    · subst hx
      simp [cut] at h
      obtain ⟨h1, h2⟩ := h
      subst h1 h2
      simp
    · have hpre : List.isPrefixOf [c] (x :: xs) = false := by simp [List.isPrefixOf, hx]
      rw [cut, hpre] at h
      simp only [Bool.false_eq_true, if_false] at h
      cases hc : cut [c] xs with
      | none =>
        rw [hc] at h
        simp at h
      | some p =>
        obtain ⟨a, b⟩ := p
        rw [hc] at h
        simp at h
        obtain ⟨h1, h2⟩ := h
        subst h1 h2
        obtain ⟨e1, e2⟩ := ih a hc
        refine ⟨by simp [e1], ?_⟩
        simp [hx, e2]

/-- The test `strings.Index(name, "-") < 0` holds exactly for the names without a hyphen. -/
theorem stringsIndex_neg_iff (name : String) :
    stringsIndex name "-" < 0 ↔ '-' ∉ name.data := by
  have hd : ("-" : String).data = ['-'] := rfl
  unfold stringsIndex
  rw [← cut_eq_none_iff, hd]
  cases h : cut ['-'] name.data with
  | none => simp
  | some p =>
    obtain ⟨a, b⟩ := p
    simp only [reduceCtorEq, iff_false, not_lt]
    exact Int.ofNat_nonneg _

/-- Splitting in two at the first occurrence of a one-character separator, then
reading the second piece. -/
theorem index_splitN_first (c : Char) (sep : String) (pre post : List Char)
    (hsep : sep.data = [c]) (h : c ∉ pre) :
    index (splitN (String.mk (pre ++ c :: post)) sep 2) 1 = .val (String.mk post) := by
  simp [splitN, hsep, splitLoop, cut_first c pre post h, index]

/-- Splitting in two at the first hyphen, then reading the second piece. -/
theorem index_splitN_hyphen (pre post : List Char) (h : '-' ∉ pre) :
    index (splitN (String.mk (pre ++ '-' :: post)) "-" 2) 1 = .val (String.mk post) :=
  index_splitN_first '-' "-" pre post rfl h

/-! ## ListContainers -/

/-- A hypervisor container without a hyphen in its name is skipped. -/
theorem listContainersStep_foreign (c : api.Container) (h : '-' ∉ c.Name.data) :
    listContainersStep c = .val none := by
  simp [listContainersStep, (stringsIndex_neg_iff c.Name).mpr h]

/-- A hypervisor container with a hyphen in its name is listed under the part of the
name after the first hyphen. -/
theorem listContainersStep_ours (c : api.Container) (h : '-' ∈ c.Name.data) :
    ∃ pre post : String, c.Name = pre ++ "-" ++ post ∧ '-' ∉ pre.data ∧
      listContainersStep c = .val (some {
        CreatedAt := c.CreatedAt
        Id := c.Name
        Image := some { Image := GoMap.get "" c.Config "image.serial" }
        ImageRef := GoMap.get "" c.Config "image.release"
        Metadata := some { Name := post, Attempt := 0 }
        PodSandboxId := c.Name
        State := translateState c.Status }) := by
  have hneg : ¬ stringsIndex c.Name "-" < 0 := by
    rw [stringsIndex_neg_iff]
    exact fun hn => hn h
  cases hc : cut ['-'] c.Name.data with
  | none => exact absurd ((cut_eq_none_iff '-' _).mp hc) (fun hn => hn h)
  | some p =>
    obtain ⟨a, b⟩ := p
    obtain ⟨e1, e2⟩ := cut_some '-' _ a b hc
    have hname : c.Name = String.mk (a ++ '-' :: b) := by
      rw [← e1]
    refine ⟨String.mk a, String.mk b, ?_, e2, ?_⟩
    · rw [hname]
      apply String.ext
      simp
    · have hi := index_splitN_hyphen a b e2
      rw [← hname] at hi
      simp [listContainersStep, hneg, hi]

/-- The loop of `ListContainers` appends, in order, one entry for each container with
a hyphen in its name. -/
theorem listContainersLoop_spec (cs : List api.Container) (acc : List runtimeApi.Container) :
    ∃ out, listContainersLoop cs acc = .val (acc ++ out) ∧
      List.Forall₂ (fun c e => listContainersStep c = .val (some e))
        (cs.filter (fun c => c.Name.data.contains '-')) out := by
  induction cs generalizing acc with
  | nil => exact ⟨[], by simp [listContainersLoop]⟩
  | cons c cs ih =>
    by_cases h : '-' ∈ c.Name.data
    · obtain ⟨e, hstep⟩ : ∃ e, listContainersStep c = .val (some e) := by
        obtain ⟨pre, post, -, -, hs⟩ := listContainersStep_ours c h
        exact ⟨_, hs⟩
      obtain ⟨out, ho, hf⟩ := ih (acc ++ [e])
      refine ⟨e :: out, ?_, ?_⟩
      · rw [listContainersLoop, hstep]
        simpa using ho
      · have hb : List.filter (fun c : api.Container => c.Name.data.contains '-') (c :: cs)
            = c :: List.filter (fun c : api.Container => c.Name.data.contains '-') cs := by
          simp [List.filter_cons, h]
        rw [hb]
        exact List.Forall₂.cons hstep hf
    · obtain ⟨out, ho, hf⟩ := ih acc
      refine ⟨out, ?_, ?_⟩
      · rw [listContainersLoop, listContainersStep_foreign c h]
        exact ho
      · have hb : List.filter (fun c : api.Container => c.Name.data.contains '-') (c :: cs)
            = List.filter (fun c : api.Container => c.Name.data.contains '-') cs := by
          simp [List.filter_cons, h]
        rw [hb]
        exact hf

/-- C5: when the hypervisor returns the containers `cs`, `ListContainers` answers with,
in the hypervisor's order, exactly one entry for each container whose name has a hyphen
and none for the others; an entry has the hypervisor name as Id, the part of the name
after its first hyphen as Metadata.Name and the translated status as State; the request
(its filter) does not influence the answer. -/
theorem ListContainers_foreign_excluded (lxd : LxdDaemon)
    (req : runtimeApi.ListContainersRequest) (cs : List api.Container)
    (hconn : lxd.connect = none) (hget : lxd.GetContainers = .ok cs) :
    (∃ out, ListContainers lxd req = .ret (some { Containers := out }) none ∧
      List.Forall₂ (fun c e =>
          e.Id = c.Name ∧ e.State = translateState c.Status ∧
          ∃ pre post : String, c.Name = pre ++ "-" ++ post ∧ '-' ∉ pre.data ∧
            e.Metadata.map (fun m => m.Name) = some post)
        (cs.filter (fun c => c.Name.data.contains '-')) out) ∧
    ListContainers lxd req = ListContainers lxd {} := by
  refine ⟨?_, by simp [ListContainers]⟩
  obtain ⟨out, ho, hf⟩ := listContainersLoop_spec cs []
  refine ⟨out, ?_, ?_⟩
  · simp only [List.nil_append] at ho
    simp [ListContainers, hconn, hget, ho]
  · refine List.Forall₂.imp ?_ hf
    intro c e hstep
    have hmem : '-' ∈ c.Name.data := by
      by_contra hn
      rw [listContainersStep_foreign c hn] at hstep
      cases hstep
    obtain ⟨pre, post, h1, h2, h3⟩ := listContainersStep_ours c hmem
    rw [h3] at hstep
    injection hstep with hstep
    injection hstep with hstep
    subst hstep
    exact ⟨rfl, rfl, pre, post, h1, h2, rfl⟩

/-- C5 at a concrete hypervisor listing: one adapter container, one foreign. -/
theorem ListContainers_foreign_excluded_witness :
    ListContainers
      { GetContainers := .ok [{ Name := "pod-abc-web", Status := "Running" },
          { Name := "foreign", Status := "Running" }] }
      { Filter := some { Id := "nothing" } } =
    ListContainers
      { GetContainers := .ok [{ Name := "pod-abc-web", Status := "Running" },
          { Name := "foreign", Status := "Running" }] } {} :=
  (ListContainers_foreign_excluded
    { GetContainers := .ok [{ Name := "pod-abc-web", Status := "Running" },
        { Name := "foreign", Status := "Running" }] }
    { Filter := some { Id := "nothing" } }
    [{ Name := "pod-abc-web", Status := "Running" }, { Name := "foreign", Status := "Running" }]
    rfl rfl).2

/-! ## Container identifiers and their display names -/

/-- Splitting always yields a first piece. -/
theorem splitLoop_succ_ne_nil (sep : List Char) (n : Nat) (s : List Char) :
    ∃ a rest, splitLoop sep (n + 1) s = a :: rest := by
  cases n with
  | zero => exact ⟨s, [], rfl⟩
  | succ n =>
    cases hc : cut sep s with
    | none => exact ⟨s, [], by simp [splitLoop, hc]⟩
    | some p => exact ⟨p.1, splitLoop sep (n + 1) p.2, by simp [splitLoop, hc]⟩

/-- For every sandbox identifier and container name, `CreateContainer` builds the
identifier "pod-" + prefix + "-" + name, and the display name read back from it (the
second piece of the split in two at the first hyphen) is prefix + "-" + name. -/
theorem containerID_displayName (S N : String) :
    ∃ p : String, containerID S N = .val ("pod-" ++ p ++ "-" ++ N) ∧
      index (splitN ("pod-" ++ p ++ "-" ++ N) "-" 2) 1 = .val (p ++ "-" ++ N) := by
  obtain ⟨a, rest, h⟩ := splitLoop_succ_ne_nil ("-" : String).data S.data.length S.data
  refine ⟨String.mk a, ?_, ?_⟩
  · have hs : split S "-" = String.mk a :: rest.map String.mk := by
      unfold split
      rw [h]
      rfl
    simp [containerID, hs, index]
  · have h1 : ("pod-" ++ String.mk a ++ "-" ++ N : String)
        = String.mk (['p', 'o', 'd'] ++ '-' :: (a ++ '-' :: N.data)) := by
      apply String.ext
      simp
    have h2 : (String.mk a ++ "-" ++ N : String) = String.mk (a ++ '-' :: N.data) := by
      apply String.ext
      simp
    rw [h1, h2]
    exact index_splitN_hyphen ['p', 'o', 'd'] (a ++ '-' :: N.data) (by decide)

/-- C3: for the sandbox identifier "abc-def-ghi" and the container name "web",
`CreateContainer` returns the identifier "pod-abc-web", and both `ListContainers` and
`ContainerStatus` report that container under the name "abc-web", not "web". -/
theorem displayName_of_created_container :
    CreateContainer {}
      { PodSandboxId := "abc-def-ghi"
        Config := some { Metadata := some { Name := "web" }, Image := some { Image := "ubuntu" } } }
      = .ret (some { ContainerId := "pod-abc-web" }) none ∧
    ListContainers { GetContainers := .ok [{ Name := "pod-abc-web", Status := "Running" }] } {}
      = .ret (some { Containers := [{
          Id := "pod-abc-web"
          PodSandboxId := "pod-abc-web"
          Metadata := some { Name := "abc-web", Attempt := 0 }
          Image := some { Image := "" }
          State := CONTAINER_RUNNING }] }) none ∧
    ContainerStatus
      { GetContainer := fun name => .ok { Name := name, Status := "Running" } } "pod-abc-web"
      = .ret (some {
          Id := "pod-abc-web"
          Metadata := some { Name := "abc-web", Attempt := 0 }
          Image := some { Image := "" }
          State := CONTAINER_RUNNING }) none := by
  decide

/-! ## Image aliases -/

/-- C4: the reference "docker.io/library/nginx:latest" gives the alias "library/nginx",
but for "docker.io/library/nginx:latest-alpine", where ":latest" is not trailing,
`CreateContainer` asks the hypervisor for the alias "library/nginx-alpine" (a daemon
that answers with its arguments shows them). -/
theorem imageAlias_inner_latest :
    imageAlias "docker.io/library/nginx:latest" = .val "library/nginx" ∧
    imageAlias "docker.io/library/nginx:latest-alpine" = .val "library/nginx-alpine" ∧
    CreateContainer { CreateContainer := fun name image => some (name ++ " <- " ++ image) }
      { PodSandboxId := "abc-def-ghi"
        Config := some { Metadata := some { Name := "web" }
                         Image := some { Image := "docker.io/library/nginx:latest-alpine" } } }
      = .ret none (some "pod-abc-web <- library/nginx-alpine") := by
  decide

/-- For a reference "docker.io/" + rest, the alias is rest with the first occurrence of
":latest" removed. -/
theorem imageAlias_docker_io (rest : String) :
    imageAlias ("docker.io/" ++ rest) = .val (replace rest ":latest" "" 1) := by
  have h1 : ("docker.io/" ++ rest : String)
      = String.mk (("docker.io" : String).data ++ '/' :: rest.data) := by
    apply String.ext
    simp
  have h2 : hasPrefix ("docker.io/" ++ rest) "docker.io" = true := by
    simp [hasPrefix]
  have h3 := index_splitN_first '/' "/" ("docker.io" : String).data rest.data rfl (by decide)
  rw [← h1] at h3
  simp [imageAlias, h2, h3]

/-- A reference that does not start with "docker.io" is passed through verbatim. -/
theorem imageAlias_verbatim (imageID : String) (h : hasPrefix imageID "docker.io" = false) :
    imageAlias imageID = .val imageID := by
  simp [imageAlias, h]

/-! ## Unimplemented methods -/

/-- C7, as stated, fails: `Attach` returns the pair (nil, nil). -/
theorem Attach_returns_nil_nil :
    Attach NewLxdRuntimeService { ContainerId := "pod-abc-web" } = .ret none none := by
  rfl

/-- C7, amended: none of the eight unimplemented methods returns an error or panics;
`ContainerStats` and `UpdateRuntimeConfig` return a non-nil empty response, and `Attach`,
`Exec`, `ExecSync`, `PortForward`, `ListContainerStats` and `UpdateContainerResources`
return the pair (nil, nil), for every request. -/
theorem unimplemented_methods_results (r : LxdRuntime)
    (attach : runtimeApi.AttachRequest) (exec : runtimeApi.ExecRequest)
    (execSync : runtimeApi.ExecSyncRequest) (portForward : runtimeApi.PortForwardRequest)
    (stats : runtimeApi.ContainerStatsRequest) (listStats : runtimeApi.ListContainerStatsRequest)
    (resources : runtimeApi.UpdateContainerResourcesRequest)
    (config : runtimeApi.UpdateRuntimeConfigRequest) :
    ContainerStats r stats = .ret (some { Stats := none }) none ∧
    UpdateRuntimeConfig r config = .ret (some {}) none ∧
    Attach r attach = .ret none none ∧
    Exec r exec = .ret none none ∧
    ExecSync r execSync = .ret none none ∧
    PortForward r portForward = .ret none none ∧
    ListContainerStats r listStats = .ret none none ∧
    UpdateContainerResources r resources = .ret none none :=
  ⟨rfl, rfl, rfl, rfl, rfl, rfl, rfl, rfl⟩

/-! ## The sandbox store -/

/-- A removed name is no longer found. -/
theorem lookup_eraseFile {β : Type} (name : String) (files : List (String × File β)) :
    List.lookup name (eraseFile name files) = none := by
  induction files with
  | nil => rfl
  | cons e files ih =>
    obtain ⟨k, f⟩ := e
    by_cases hk : k = name
    · simpa [eraseFile, hk] using ih
    · have hb : (name == k) = false := by simpa using fun h => hk h.symm
      simpa [eraseFile, hk, List.lookup_cons, hb] using ih

/-- Resolving a path looks at the directory name only. -/
theorem resolve_files {β : Type} (fs : FS β) (files : List (String × File β))
    (path : String) : FS.resolve { fs with files := files } path = fs.resolve path := by
  rfl

/-- Reading a path that `os.Remove` was just called on fails. -/
theorem ReadFile_Remove {β : Type} (fs : FS β) (path : String) :
    ∃ err, (fs.Remove path).ReadFile path = .error err := by
  cases h : fs.resolve path with
  | none =>
    refine ⟨"not a regular file", ?_⟩
    have h1 : fs.Remove path = fs := by
      unfold FS.Remove
      rw [h]
    rw [h1]
    unfold FS.ReadFile
    rw [h]
  | some name =>
    refine ⟨"no such file or directory", ?_⟩
    have h1 : fs.Remove path = { fs with files := eraseFile name fs.files } := by
      unfold FS.Remove
      rw [h]
    rw [h1]
    unfold FS.ReadFile
    rw [resolve_files, h]
    simp only [lookup_eraseFile]

/-- When the record cannot be read, `getPodStatus` returns the read error and no status. -/
theorem getPodStatus_unreadable {β : Type} (r : LxdRuntime) (codec : Codec β) (fs : FS β)
    (lxd : LxdDaemon) (podID : String) (err : Error)
    (h : fs.ReadFile (getPodPath r podID) = .error err) :
    getPodStatus r codec fs lxd podID = .ret none (some err) := by
  simp [getPodStatus, h]

/-- C8, as stated, fails: once the record of "abc123" is removed, `getPodStatus` returns
an error and a nil status, not a status in state SANDBOX_NOTREADY. -/
theorem getPodStatus_removed_is_error :
    getPodStatus NewLxdRuntimeService plainCodec
      (RemovePodSandbox NewLxdRuntimeService storeAbc123 "abc123").2 {} "abc123"
      = .ret none (some "no such file or directory") := by
  decide

/-- C8, amended: for every pod UID, after `StopPodSandbox` or `RemovePodSandbox` of that
UID, and whenever the record does not exist (`os.Stat` fails, as for a record never
written), `getPodStatus` returns an error and no status. -/
theorem getPodStatus_missing_record {β : Type} (r : LxdRuntime) (codec : Codec β)
    (fs : FS β) (lxd : LxdDaemon) (u : String) :
    (∃ err, getPodStatus r codec (StopPodSandbox r fs u).2 lxd u = .ret none (some err)) ∧
    (∃ err, getPodStatus r codec (RemovePodSandbox r fs u).2 lxd u = .ret none (some err)) ∧
    (fs.Stat (getPodPath r u) = none →
      ∃ err, getPodStatus r codec fs lxd u = .ret none (some err)) := by
  refine ⟨?_, ?_, ?_⟩
  · obtain ⟨err, h⟩ := ReadFile_Remove fs (getPodPath r u)
    exact ⟨err, getPodStatus_unreadable r codec _ lxd u err h⟩
  · obtain ⟨err, h⟩ := ReadFile_Remove fs (getPodPath r u)
    exact ⟨err, getPodStatus_unreadable r codec _ lxd u err h⟩
  · intro hstat
    have : ∃ err, fs.ReadFile (getPodPath r u) = .error err := by
      unfold FS.Stat at hstat
      unfold FS.ReadFile
      cases hr : fs.resolve (getPodPath r u) with
      | none => exact ⟨"not a regular file", rfl⟩
      | some name =>
        rw [hr] at hstat
        cases hl : List.lookup name fs.files with
        | none => exact ⟨"no such file or directory", by simp [hl]⟩
        | some f => simp [hl] at hstat
    obtain ⟨err, h⟩ := this
    exact ⟨err, getPodStatus_unreadable r codec fs lxd u err h⟩

/-- C8, amended, at the pod UID "abc123" on the empty store, where no record was written. -/
theorem getPodStatus_missing_record_witness :
    ∃ err, getPodStatus NewLxdRuntimeService plainCodec emptyStore {} "abc123"
      = .ret none (some err) :=
  (getPodStatus_missing_record NewLxdRuntimeService plainCodec emptyStore {} "abc123").2.2
    (by decide)

/-! ## The network lookup of `getPodStatus` -/

/-- C9: with the record of pod "abc123" in the store and a hypervisor whose only
container is named "abc123host" (no hyphen), `getPodStatus` selects that container and
attaches its address to the sandbox status. -/
theorem getPodStatus_selects_foreign :
    getPodStatus NewLxdRuntimeService plainCodec storeAbc123
      { GetContainers := .ok [{ Name := "abc123host", Status := "Running" }]
        GetContainerState := fun _ => .ok { Status := "Running", Network :=
          [("eth0", { Addresses := [{ Family := "inet", Address := "10.0.0.5" }] })] } }
      "abc123"
      = .ret (some {
          Id := "abc123"
          Metadata := some { Name := "web", Uid := "abc123", Namespace := "default" }
          State := SANDBOX_READY
          CreatedAt := 7
          Network := some { Ip := "10.0.0.5" } }) none ∧
    stringsIndex "abc123host" "-" < 0 := by
  decide

/-- C10: the address pattern accepts "1a2b3c4", which is no dotted-decimal address, and
`getPodStatus` attaches it as the sandbox Ip. -/
theorem getPodStatus_attaches_non_ip :
    isIP "1a2b3c4" = true ∧
    getPodStatus NewLxdRuntimeService plainCodec storeAbc123
      { GetContainers := .ok [{ Name := "abc123-web", Status := "Running" }]
        GetContainerState := fun _ => .ok { Status := "Running", Network :=
          [("eth0", { Addresses := [{ Family := "inet", Address := "1a2b3c4" }] })] } }
      "abc123"
      = .ret (some {
          Id := "abc123"
          Metadata := some { Name := "web", Uid := "abc123", Namespace := "default" }
          State := SANDBOX_READY
          CreatedAt := 7
          Network := some { Ip := "1a2b3c4" } }) none := by
  decide

/-! ## The sandbox lifecycle -/

/-- The path of a pod with a valid file name as UID denotes the file of that name. -/
theorem resolve_getPodPath {β : Type} (r : LxdRuntime) (fs : FS β) (u : String)
    (hdir : fs.dir = r.lxdDataPath) (hu : validFileName u = true) :
    fs.resolve (getPodPath r u) = some u := by
  have hdata : (getPodPath r u).data = (fs.dir.data ++ ['/']) ++ u.data := by
    simp [getPodPath, hdir]
  have hpre : (fs.dir.data ++ ['/']).isPrefixOf (getPodPath r u).data = true := by
    rw [hdata]
    simp
  have hdrop : (getPodPath r u).data.drop (fs.dir.data.length + 1) = u.data := by
    rw [hdata]
    have hl : fs.dir.data.length + 1 = (fs.dir.data ++ ['/']).length := by simp
    rw [hl, List.drop_left]
  unfold FS.resolve
  rw [if_pos hpre]
  simp only [hdrop]
  rw [if_pos hu]

/-- C6: after `RunPodSandbox` with UID "abc123" on the empty store has succeeded, and with
a hypervisor container named "abc123" whose network state has the loopback interface
and no "eth0", `ListPodSandbox` with no filter panics on `Addresses[0]` instead of
returning the entry "abc123". -/
theorem ListPodSandbox_panics_without_eth0 :
    (RunPodSandbox NewLxdRuntimeService plainCodec 7 emptyStore runAbc123).1
      = .ret (some { PodSandboxId := "abc123" }) none ∧
    ListPodSandbox NewLxdRuntimeService plainCodec storeAbc123
      { GetContainers := .ok [{ Name := "abc123", Status := "Running" }]
        GetContainerState := fun _ => .ok { Status := "Running", Network :=
          [("lo", { Addresses := [{ Family := "inet", Address := "127.0.0.1" }] })] } }
      {}
      = .panic "index out of range" := by
  decide

/-- The lifecycle scenario, for a hypervisor on which the network lookup of the pod
returns: from the empty store, `RunPodSandbox` with a UID that is a valid file name
succeeds and returns the UID; `ListPodSandbox` with no filter then returns exactly one
entry, with that identifier; and after `RemovePodSandbox` it returns no entry. -/
theorem sandbox_lifecycle_when_lookup_returns {β : Type} (r : LxdRuntime) (codec : Codec β)
    (now : Int) (lxd : LxdDaemon) (cfg : runtimeApi.PodSandboxConfig)
    (m : runtimeApi.PodSandboxMetadata) (content : β)
    (hcfg : cfg.Metadata = some m) (hu : validFileName m.Uid = true)
    (hmarshal : codec.Marshal (some cfg) = .ok content)
    (hunmarshal : codec.Unmarshal content = .ok cfg)
    (hsafe : ∀ msg, podNetworkLookup lxd m.Uid ≠ .panic msg) :
    (RunPodSandbox r codec now { dir := r.lxdDataPath, files := [] } { Config := some cfg }).1
      = .ret (some { PodSandboxId := m.Uid }) none ∧
    (∃ e, ListPodSandbox r codec
        (RunPodSandbox r codec now { dir := r.lxdDataPath, files := [] }
          { Config := some cfg }).2 lxd {}
        = .ret (some { Items := [e] }) none ∧ e.Id = m.Uid) ∧
    ListPodSandbox r codec
        (RemovePodSandbox r
          (RunPodSandbox r codec now { dir := r.lxdDataPath, files := [] }
            { Config := some cfg }).2 m.Uid).2 lxd {}
      = .ret (some { Items := [] }) none := by
  have huid : requestUid { Config := some cfg } = m.Uid := by
    simp [requestUid, hcfg]
  have hres0 : FS.resolve ({ dir := r.lxdDataPath, files := [] } : FS β) (getPodPath r m.Uid)
      = some m.Uid := resolve_getPodPath r _ m.Uid rfl hu
  have hrun : RunPodSandbox r codec now { dir := r.lxdDataPath, files := [] }
      { Config := some cfg }
      = (.ret (some { PodSandboxId := m.Uid }) none,
         { dir := r.lxdDataPath
           files := [(m.Uid, { content := content, ctime := now })] }) := by
    simp [RunPodSandbox, huid, hmarshal, FS.WriteFile, hres0, eraseFile]
  rw [hrun]
  have hres1 : FS.resolve
      ({ dir := r.lxdDataPath, files := [(m.Uid, { content := content, ctime := now })] } : FS β)
      (getPodPath r m.Uid) = some m.Uid := resolve_getPodPath r _ m.Uid rfl hu
  refine ⟨rfl, ?_, ?_⟩
  · have hstat : ∃ st, getPodStatus r codec
        ({ dir := r.lxdDataPath, files := [(m.Uid, { content := content, ctime := now })] } : FS β)
        lxd m.Uid = .ret (some st) none ∧ st.Id = m.Uid := by
      cases hl : podNetworkLookup lxd m.Uid with
      | panic msg => exact absurd hl (hsafe msg)
      | val nw =>
        cases nw with
        | none =>
          refine ⟨{ Id := m.Uid, Metadata := cfg.Metadata, State := SANDBOX_READY,
                    CreatedAt := now }, ?_, rfl⟩
          simp [getPodStatus, FS.Stat, FS.ReadFile, hres1, hunmarshal, hl]
        | some network =>
          refine ⟨{ Id := m.Uid, Metadata := cfg.Metadata, State := SANDBOX_READY,
                    CreatedAt := now, Network := some network }, ?_, rfl⟩
          simp [getPodStatus, FS.Stat, FS.ReadFile, hres1, hunmarshal, hl]
    obtain ⟨st, hst, hid⟩ := hstat
    refine ⟨{ Id := st.Id, Labels := st.Labels, Metadata := st.Metadata, State := st.State,
              CreatedAt := st.CreatedAt }, ?_, hid⟩
    simp [ListPodSandbox, FS.ReadDir, insertName, listPodSandboxLoop, hst,
      podSandboxStatusMatchesFilter]
  · simp [RemovePodSandbox, FS.Remove, hres1, eraseFile, ListPodSandbox, FS.ReadDir,
      listPodSandboxLoop]

/-! ## Listing sandboxes under a filter -/

/-- A status built by `getPodStatus` carries no label. -/
theorem getPodStatus_Labels {β : Type} (r : LxdRuntime) (codec : Codec β) (fs : FS β)
    (lxd : LxdDaemon) (podID : String) (st : runtimeApi.PodSandboxStatus) (e : Option Error)
    (h : getPodStatus r codec fs lxd podID = .ret (some st) e) : st.Labels = [] := by
  unfold getPodStatus at h
  cases hr : fs.ReadFile (getPodPath r podID) with
  | error err => simp [hr] at h
  | ok content =>
    cases hu : codec.Unmarshal content with
    | error err => simp [hr, hu] at h
    | ok config =>
      cases hl : podNetworkLookup lxd podID with
      | panic msg => simp [hr, hu, hl] at h
      | val nw =>
        cases nw with
        | none =>
          simp [hr, hu, hl] at h
          rw [← h.1]
        | some network =>
          simp [hr, hu, hl] at h
          rw [← h.1]

/-- A status without labels fails every filter whose label selector has an entry. -/
theorem unlabelled_fails_selector (st : runtimeApi.PodSandboxStatus)
    (f : runtimeApi.PodSandboxFilter) (key val : String) (hst : st.Labels = [])
    (hsel : f.LabelSelector.get? key = some val) :
    podSandboxStatusMatchesFilter st (some f) = false := by
  cases hm : podSandboxStatusMatchesFilter st (some f) with
  | false => rfl
  | true =>
    exfalso
    simp only [podSandboxStatusMatchesFilter] at hm
    split at hm
    · cases hm
    · split at hm
      · cases hm
      · have hb := (rangeAll_iff _ _).mp hm key val hsel
        simp [hst, GoMap.get?] at hb

/-- Under a filter whose label selector has an entry, the loop of `ListPodSandbox`
appends nothing. -/
theorem listPodSandboxLoop_selector {β : Type} (r : LxdRuntime) (codec : Codec β)
    (fs : FS β) (lxd : LxdDaemon) (f : runtimeApi.PodSandboxFilter) (key val : String)
    (hsel : f.LabelSelector.get? key = some val) (names : List String)
    (acc : List runtimeApi.PodSandbox) (resp : runtimeApi.ListPodSandboxResponse)
    (e : Option Error)
    (h : listPodSandboxLoop r codec fs lxd (some f) names acc = .ret (some resp) e) :
    resp.Items = acc := by
  induction names with
  | nil =>
    simp [listPodSandboxLoop] at h
    rw [← h.1]
  | cons podID rest ih =>
    rw [listPodSandboxLoop] at h
    cases hg : getPodStatus r codec fs lxd podID with
    | panic msg => simp [hg] at h
    | ret st err =>
      cases err with
      | some err => simp [hg] at h
      | none =>
        cases st with
        | none => simp [hg] at h
        | some st =>
          have hfail := unlabelled_fails_selector st f key val
            (getPodStatus_Labels r codec fs lxd podID st none hg) hsel
          simp [hg, hfail] at h
          exact ih h

/-- Whatever the store holds, `ListPodSandbox` under a filter whose label selector has
an entry lists no sandbox when it returns a response. -/
theorem ListPodSandbox_selector_lists_nothing {β : Type} (r : LxdRuntime) (codec : Codec β)
    (fs : FS β) (lxd : LxdDaemon) (f : runtimeApi.PodSandboxFilter) (key val : String)
    (hsel : f.LabelSelector.get? key = some val) (resp : runtimeApi.ListPodSandboxResponse)
    (e : Option Error)
    (h : ListPodSandbox r codec fs lxd { Filter := some f } = .ret (some resp) e) :
    resp.Items = [] := by
  unfold ListPodSandbox at h
  cases hd : fs.ReadDir r.lxdDataPath with
  | error err => simp [hd] at h
  | ok files =>
    simp only [hd] at h
    exact listPodSandboxLoop_selector r codec fs lxd f key val hsel files [] resp e h

/-- C11: the sandbox "abc123" is run with labels {a: 1}, which its persisted
configuration carries; `ListPodSandbox` with no filter lists it, with an empty label
map, and `ListPodSandbox` with the label selector {a: 1} lists nothing. -/
theorem ListPodSandbox_ignores_stored_labels :
    (RunPodSandbox NewLxdRuntimeService plainCodec 7 emptyStore runLabelled).1
      = .ret (some { PodSandboxId := "abc123" }) none ∧
    (storeLabelled.ReadFile (getPodPath NewLxdRuntimeService "abc123")).toOption.map
      (fun config => config.Labels) = some [("a", "1")] ∧
    ListPodSandbox NewLxdRuntimeService plainCodec storeLabelled {} {}
      = .ret (some { Items := [{
          Id := "abc123"
          Metadata := some { Name := "web", Uid := "abc123", Namespace := "default" }
          State := SANDBOX_READY
          CreatedAt := 7
          Labels := [] }] }) none ∧
    ListPodSandbox NewLxdRuntimeService plainCodec storeLabelled {}
      { Filter := some { LabelSelector := [("a", "1")] } }
      = .ret (some { Items := [] }) none := by
  decide

/-! ## ContainerStatus on a name without a hyphen -/

/-- When the hypervisor returns a container whose name has no hyphen, `ContainerStatus`
panics on the index `[1]`. -/
theorem ContainerStatus_foreign (lxd : LxdDaemon) (ContainerId : String)
    (container : api.Container) (hconn : lxd.connect = none)
    (hget : lxd.GetContainer ContainerId = .ok container)
    (h : '-' ∉ container.Name.data) :
    ContainerStatus lxd ContainerId = .panic "index out of range" := by
  have hd : ("-" : String).data = ['-'] := rfl
  have hcut : cut ['-'] container.Name.data = none := (cut_eq_none_iff '-' _).mpr h
  have hidx : index (splitN container.Name "-" 2) 1 = .panic "index out of range" := by
    simp [splitN, hd, splitLoop, hcut, index]
  simp [ContainerStatus, hconn, hget, hidx]

/-- When the hypervisor returns a container whose name has a hyphen, `ContainerStatus`
returns a status and no error. -/
theorem ContainerStatus_ours (lxd : LxdDaemon) (ContainerId : String)
    (container : api.Container) (hconn : lxd.connect = none)
    (hget : lxd.GetContainer ContainerId = .ok container)
    (h : '-' ∈ container.Name.data) :
    ∃ status, ContainerStatus lxd ContainerId = .ret (some status) none := by
  cases hc : cut ['-'] container.Name.data with
  | none => exact absurd ((cut_eq_none_iff '-' _).mp hc) (fun hn => hn h)
  | some p =>
    obtain ⟨a, b⟩ := p
    obtain ⟨e1, e2⟩ := cut_some '-' _ a b hc
    have hname : container.Name = String.mk (a ++ '-' :: b) := by
      rw [← e1]
    have hi := index_splitN_hyphen a b e2
    rw [← hname] at hi
    refine ⟨{ Id := ContainerId, Metadata := some { Name := String.mk b, Attempt := 0 },
              State := translateState container.Status, CreatedAt := container.CreatedAt,
              Image := some { Image := GoMap.get "" container.Config "image.serial" },
              ImageRef := GoMap.get "" container.Config "image.release" }, ?_⟩
    simp [ContainerStatus, hconn, hget, hi]

/-- C12: for the identifier "foreign", whose hypervisor record has the name "foreign"
(no hyphen), `ContainerStatus` returns neither a status nor an error: it panics with
index out of range; `ListContainers` skips the same container. -/
theorem ContainerStatus_panics_on_foreign :
    ContainerStatus
      { GetContainer := fun name => .ok { Name := name, Status := "Running" } } "foreign"
      = .panic "index out of range" ∧
    ListContainers { GetContainers := .ok [{ Name := "foreign", Status := "Running" }] } {}
      = .ret (some { Containers := [] }) none := by
  decide

end Lxdlet
